/-
Verification of the `logr` logging package (src/logr.go) against its
specification.

The Go code is shallowly embedded as follows:

* `Level`, `getLevel`, `NewLogger`, `Logger.log`, `Logger.clone`,
  `Logger.WithContext`, the six severity methods, `Logger.Fatal` /
  `Logger.Fatalf` and `GetCaller` are translated function by function.
* The shared mutable state of the embedded standard-library `log.Logger`
  (its line prefix and its output stream) together with the heap of
  allocated `Logger` structs and the process-exit flag form an explicit
  `World` record; every stateful Go method becomes a function
  `World -> ... -> World`.  A `*Logger` value is a heap index (`Nat`).
* `fmt.Sprintf` is modelled by `sprintf` over a value type `GoVal`
  covering the string and integer arguments the package uses, with the
  verbs `%d`, `%s`, `%v`, `%%` (and Go's `%!`-style diagnostics for
  missing or mismatched operands).  `%q` on a string is modelled by
  `goQuote`, covering printable characters and the common escapes.
* `time.Now().Format(format)` is modelled by passing the already
  formatted timestamp string `now` as an argument.
* `os.LookupEnv "LOG_LEVEL"` is modelled by an `Option String` argument.
* `runtime.Caller` / `runtime.FuncForPC(...).Name()` are modelled by an
  `Option String` argument (`none` = introspection failed); the Go
  slice indexing `funcName[1]`, which panics when out of bounds, is
  modelled by the `Option`-valued `List.getElem?`.
* `toLowerGo` stands for Go's `strings.ToLower`; the two agree on the
  ASCII strings the level names use.
-/
import Mathlib

namespace Logr

/-! ### Data model: severity levels (src/logr.go lines 26-46) -/

structure Level where
  val : Nat
  name : String
deriving DecidableEq, Repr

def ErrorLevel : Level := { val := 0, name := "ERROR" }
def InfoLevel : Level := { val := 1, name := "INFO" }
def DebugLevel : Level := { val := 2, name := "DEBUG" }

/-- `strings.ToLower`, modelled character by character; it agrees with
Go on the ASCII strings the level names use. -/
def toLowerGo (s : String) : String := String.mk (s.data.map Char.toLower)

/-- `getLevel` (src/logr.go lines 48-59): a `switch` on
`strings.ToLower l`, translated as the equivalent chain of equality
tests in the switch's order. -/
def getLevel (l : String) : Level :=
  if toLowerGo l = "error" then ErrorLevel
  else if toLowerGo l = "debug" then DebugLevel
  else if toLowerGo l = "info" then InfoLevel
  else InfoLevel

/-! ### The `fmt.Sprintf` model -/

/-- Arguments passed to `fmt.Sprintf` (`...any`): the package's call
sites use strings and integers. -/
inductive GoVal where
  | str (s : String)
  | int (n : Int)
deriving DecidableEq, Repr

/-- Escape one character as Go's `%q` does, for printable characters
and the common control escapes. -/
def goQuoteChar (c : Char) : List Char :=
  if c = '"' then ['\\', '"']
  else if c = '\\' then ['\\', '\\']
  else if c = '\n' then ['\\', 'n']
  else if c = '\t' then ['\\', 't']
  else if c = '\r' then ['\\', 'r']
  else [c]

/-- Go's `%q` applied to a string: double quotes around the escaped
body. -/
def goQuote (s : String) : String :=
  String.mk ('"' :: s.data.foldr (fun c acc => goQuoteChar c ++ acc) ['"'])

/-- How Go renders a mismatched or extra operand inside a `%!`
diagnostic: `type=value`. -/
def goValDiag : GoVal → List Char
  | .str s => "string=".data ++ s.data
  | .int n => "int=".data ++ (toString n).data

/-- One verb applied to one operand (the subset of `fmt` verbs the
package's call sites can reach, plus Go's `%!` diagnostics for a
mismatched operand or an unknown verb). -/
def showVerb (verb : Char) (v : GoVal) : List Char :=
  if verb = 'd' then
    match v with
    | .int n => (toString n).data
    | .str s => "%!d(string=".data ++ s.data ++ [')']
  else if verb = 's' then
    match v with
    | .str s => s.data
    | .int n => "%!s(int=".data ++ (toString n).data ++ [')']
  else if verb = 'q' then
    match v with
    | .str s => (goQuote s).data
    | .int n => "%!q(int=".data ++ (toString n).data ++ [')']
  else if verb = 'v' then
    match v with
    | .str s => s.data
    | .int n => (toString n).data
  else
    '%' :: '!' :: verb :: '(' :: goValDiag v ++ [')']

/-- Go's `%!(EXTRA ...)` suffix for surplus operands. -/
def goExtra (args : List GoVal) : List Char :=
  match args with
  | [] => []
  | a :: as =>
    "%!(EXTRA ".data ++ goValDiag a ++
      (as.foldr (fun v acc => ',' :: ' ' :: goValDiag v ++ acc) []) ++ [')']

/-- The body of `fmt.Sprintf`: walk the format, substituting one
operand per verb; `%%` is a literal percent; a verb with no operand
left renders `%!x(MISSING)`; a trailing lone `%` renders `%!(NOVERB)`;
surplus operands append an `%!(EXTRA ...)` diagnostic. -/
def sprintfAux : List Char → List GoVal → List Char
  | [], args => goExtra args
  | c :: rest, args =>
    if c = '%' then
      match rest with
      | [] => "%!(NOVERB)".data ++ goExtra args
      | v :: rest2 =>
        if v = '%' then '%' :: sprintfAux rest2 args
        else
          match args with
          | [] => '%' :: '!' :: v :: "(MISSING)".data ++ sprintfAux rest2 []
          | a :: as => showVerb v a ++ sprintfAux rest2 as
    else c :: sprintfAux rest args

/-- `fmt.Sprintf` on the argument shapes the package uses. -/
def sprintf (f : String) (args : List GoVal) : String :=
  String.mk (sprintfAux f.data args)

/-! ### The `Logger` type and the mutable world

A Go `Logger` struct embeds `*log.Logger`; every `Logger` the package
creates shares the one returned by `log.Default()`, so the embedded
sink is a single shared record.  `log.Logger`'s state that this package
touches is its line prefix (via `SetPrefix`) and its output stream
(the lines written by `Printf` / `Output`); flags are set to 0 at
construction and never change, so the emitted line is exactly
`prefix ++ formatted message` with no date decoration. -/

/-- The shared `log.Logger` sink: its current prefix and the lines
already written to its output stream (each entry one newline-terminated
line, stored without the terminator). -/
structure Sink where
  pfx : String
  lines : List String
deriving DecidableEq, Repr

/-- The fields of the `Logger` struct other than the shared
`*log.Logger` pointer (src/logr.go lines 36-40). -/
structure LoggerVal where
  Level : Level
  contextMessage : String
deriving DecidableEq, Repr

/-- The mutable world: the shared sink, the heap of allocated `Logger`
structs (a `*Logger` is an index into it), and whether `os.Exit` has
been reached (set by `log.Logger.Fatal`). -/
structure World where
  sink : Sink
  heap : List LoggerVal
  exited : Bool
deriving DecidableEq, Repr

/-- Dereference a `*Logger`.  All references produced by the embedded
operations are in bounds; the default is never reached for them. -/
def readLogger (w : World) (r : Nat) : LoggerVal :=
  w.heap.getD r { Level := InfoLevel, contextMessage := "" }

/-- `NewLogger` (src/logr.go lines 61-75): the struct value it builds.
`env` is the result of `os.LookupEnv "LOG_LEVEL"`; when the variable is
absent `level` keeps its zero value `""`.  The `log.Default()` sink and
`SetFlags 0` are reflected in `initialWorld`. -/
def NewLogger (env : Option String) : LoggerVal :=
  let level := match env with
    | some v => v
    | none => ""
  { Level := getLevel level, contextMessage := "" }

/-- The world at process start after the package variable
`std = NewLogger()` is initialised: the `log.Default()` sink has an
empty prefix and nothing written, flags have been cleared, and the one
allocated `Logger` is `std` (reference 0). -/
def initialWorld (env : Option String) : World :=
  { sink := { pfx := "", lines := [] }
    heap := [NewLogger env]
    exited := false }

/-- The prefix `log` installs:
`fmt.Sprintf "timestamp=%s level=%s " (time.Now().Format format) lvl.name`
with the formatted clock reading passed in as `now`. -/
def timeLevel (now : String) (lvl : Level) : String :=
  "timestamp=" ++ now ++ " level=" ++ lvl.name ++ " "

/-- `Logger.log` (src/logr.go lines 77-87): set the sink prefix to the
timestamp/level string, then, when the message level passes the
threshold, `Printf` one line (prefix, then `msg=%q`, then the context
message when non-empty). -/
def Logger.log (w : World) (r : Nat) (lvl : Level) (now : String) (s : String) : World :=
  let l := readLogger w r
  let tl := timeLevel now lvl
  let w1 : World := { w with sink := { w.sink with pfx := tl } }
  if lvl.val ≤ l.Level.val then
    let body :=
      if l.contextMessage ≠ "" then "msg=" ++ goQuote s ++ l.contextMessage
      else "msg=" ++ goQuote s
    { w1 with sink := { w1.sink with lines := w1.sink.lines ++ [w1.sink.pfx ++ body] } }
  else w1

/-- `Logger.clone` (src/logr.go lines 89-92): allocate a copy of the
struct and return a pointer to it. -/
def Logger.clone (w : World) (r : Nat) : World × Nat :=
  ({ w with heap := w.heap ++ [readLogger w r] }, w.heap.length)

/-- `Logger.WithContext` (src/logr.go lines 94-103): clone, fold the
field map into the receiver's context message, store the result in the
clone, return the clone.  Go's map iteration order is unspecified; the
map is modelled as the list of its entries in some iteration order, and
`fmt.Sprintf "%s %s=%s" context k v` is the concatenation
`context ++ " " ++ k ++ "=" ++ v`. -/
def Logger.WithContext (w : World) (r : Nat) (s : List (String × String)) : World × Nat :=
  let p := Logger.clone w r
  let w1 := p.1
  let c := p.2
  let context := (readLogger w r).contextMessage
  let context := s.foldl (fun acc kv => acc ++ " " ++ kv.1 ++ "=" ++ kv.2) context
  ({ w1 with heap := w1.heap.set c { readLogger w1 c with contextMessage := context } }, c)

/-- `Logger.WithSource` (src/logr.go lines 105-112): `WithContext` on
the two-entry map built from `runtime.Caller 1`; `file` and `line` are
passed in for the introspected values, and the iteration order of the
two-key map is existentially unknown, so both orders are modelled by a
Bool parameter. -/
def Logger.WithSource (w : World) (r : Nat) (file : String) (line : Int)
    (fileFirst : Bool) : World × Nat :=
  let entries :=
    if fileFirst then [("file", file), ("line", sprintf "%d" [GoVal.int line])]
    else [("line", sprintf "%d" [GoVal.int line]), ("file", file)]
  Logger.WithContext w r entries

/-- `Logger.Error` (src/logr.go lines 114-116). -/
def Logger.Error (w : World) (r : Nat) (now : String) (s : String) : World :=
  Logger.log w r ErrorLevel now s

/-- `Logger.Errorf` (src/logr.go lines 118-122):
`f := fmt.Sprintf "%s" format; m := fmt.Sprintf f s...`. -/
def Logger.Errorf (w : World) (r : Nat) (now : String) (format : String)
    (s : List GoVal) : World :=
  let f := sprintf "%s" [GoVal.str format]
  let m := sprintf f s
  Logger.log w r ErrorLevel now m

/-- `Logger.Info` (src/logr.go lines 124-126). -/
def Logger.Info (w : World) (r : Nat) (now : String) (s : String) : World :=
  Logger.log w r InfoLevel now s

/-- `Logger.Infof` (src/logr.go lines 128-132). -/
def Logger.Infof (w : World) (r : Nat) (now : String) (format : String)
    (s : List GoVal) : World :=
  let f := sprintf "%s" [GoVal.str format]
  let m := sprintf f s
  Logger.log w r InfoLevel now m

/-- `Logger.Debug` (src/logr.go lines 134-136). -/
def Logger.Debug (w : World) (r : Nat) (now : String) (s : String) : World :=
  Logger.log w r DebugLevel now s

/-- `Logger.Debugf` (src/logr.go lines 138-142). -/
def Logger.Debugf (w : World) (r : Nat) (now : String) (format : String)
    (s : List GoVal) : World :=
  let f := sprintf "%s" [GoVal.str format]
  let m := sprintf f s
  Logger.log w r DebugLevel now m

/-- `Logger.Fatal` (src/logr.go lines 144-147):
`m := fmt.Sprintf "level=FATAL msg=%s" s` (the message under `%s`, not
`%q`), then `log.Logger.Fatal m`, which writes one line consisting of
the sink's current prefix followed by `m` and calls `os.Exit 1`.  No
level gate is consulted and the prefix is not touched. -/
def Logger.Fatal (w : World) (r : Nat) (s : String) : World :=
  let m := sprintf "level=FATAL msg=%s" [GoVal.str s]
  { w with
    sink := { w.sink with lines := w.sink.lines ++ [w.sink.pfx ++ m] }
    exited := true }

/-- `Logger.Fatalf` (src/logr.go lines 149-153):
`f := fmt.Sprintf "level=FATAL msg=%s" format; m := fmt.Sprintf f s...`,
then `log.Logger.Fatal m` as in `Logger.Fatal`. -/
def Logger.Fatalf (w : World) (r : Nat) (format : String) (s : List GoVal) : World :=
  let f := sprintf "level=FATAL msg=%s" [GoVal.str format]
  let m := sprintf f s
  { w with
    sink := { w.sink with lines := w.sink.lines ++ [w.sink.pfx ++ m] }
    exited := true }

/-! ### `GetCaller` (src/logr.go lines 188-196) -/

/-- `strings.Split s "."`: split on every dot; always at least one
component; a string with no dot splits into the single component
itself. -/
def splitOnDot : List Char → List (List Char)
  | [] => [[]]
  | c :: cs =>
    if c = '.' then [] :: splitOnDot cs
    else
      match splitOnDot cs with
      | [] => [[c]]
      | h :: t => (c :: h) :: t

/-- `GetCaller` (src/logr.go lines 188-196).  `caller` is the result of
stack introspection: `none` when `runtime.Caller 1` reports failure,
otherwise the fully qualified name from `runtime.FuncForPC(pc).Name()`.
The Go indexing `funcName[1]` panics when the split has fewer than two
components; the panic is modelled by a `none` result. -/
def GetCaller (caller : Option String) : Option String :=
  match caller with
  | none => some "function name unknown"
  | some qualified =>
    let funcName := splitOnDot qualified.data
    (funcName.get? 1).map String.mk

/-! ### Helper lemmas -/

theorem sprintf_s (x : String) : sprintf "%s" [GoVal.str x] = x := by
  simp [sprintf, sprintfAux, showVerb, goExtra]

theorem sprintf_fatal (x : String) :
    sprintf "level=FATAL msg=%s" [GoVal.str x] = "level=FATAL msg=" ++ x := by
  apply String.ext
  simp [sprintf, sprintfAux, showVerb, goExtra, String.data_append]

/-- A verb-free piece of the format passes through `sprintfAux`
verbatim, consuming no operands. -/
theorem sprintfAux_append_no_pct (l : List Char) (rest : List Char) (args : List GoVal)
    (h : '%' ∉ l) : sprintfAux (l ++ rest) args = l ++ sprintfAux rest args := by
  induction l with
  | nil => rfl
  | cons c cs ih =>
    have hc : c ≠ '%' := fun e => h (e ▸ List.mem_cons_self c cs)
    rw [List.cons_append, sprintfAux.eq_def]
    dsimp only
    rw [if_neg hc, ih (fun hm => h (List.mem_cons_of_mem c hm)), List.cons_append]

/-- `fmt.Sprintf` with a format that prepends the verb-free
`level=FATAL msg=` piece interpolates exactly like the bare format. -/
theorem sprintf_fatal_pre (f : String) (args : List GoVal) :
    sprintf ("level=FATAL msg=" ++ f) args = "level=FATAL msg=" ++ sprintf f args := by
  unfold sprintf
  rw [String.data_append, sprintfAux_append_no_pct _ _ _ (by decide)]
  rfl

theorem set_concat_length {α : Type} (l : List α) (a b : α) :
    (l ++ [a]).set l.length b = l ++ [b] := by
  induction l with
  | nil => rfl
  | cons x xs ih => simp [List.set, ih]

theorem getD_concat_length {α : Type} (l : List α) (a d : α) :
    (l ++ [a]).getD l.length d = a := by
  rw [List.getD_append_right _ _ _ _ (Nat.le_refl _)]
  simp

/-- What one `Logger.log` call does to the world, in closed form. -/
theorem log_eq (w : World) (r : Nat) (lvl : Level) (now s : String) :
    Logger.log w r lvl now s =
      { sink :=
          { pfx := timeLevel now lvl
            lines := w.sink.lines ++
              (if lvl.val ≤ (readLogger w r).Level.val then
                [timeLevel now lvl ++
                  (if (readLogger w r).contextMessage ≠ "" then
                    "msg=" ++ goQuote s ++ (readLogger w r).contextMessage
                  else "msg=" ++ goQuote s)]
              else []) }
        heap := w.heap
        exited := w.exited } := by
  unfold Logger.log
  split <;> simp_all

/-- What one `Logger.WithContext` call does to the world, in closed
form: the receiver's struct is untouched; one new struct is allocated
with the same `Level` and the extended context message. -/
theorem withContext_eq (w : World) (r : Nat) (m : List (String × String)) :
    Logger.WithContext w r m =
      ({ sink := w.sink
         heap := w.heap ++
           [{ Level := (readLogger w r).Level
              contextMessage :=
                m.foldl (fun acc kv => acc ++ " " ++ kv.1 ++ "=" ++ kv.2)
                  (readLogger w r).contextMessage }]
         exited := w.exited }, w.heap.length) := by
  unfold Logger.WithContext Logger.clone
  simp only []
  rw [show readLogger { w with heap := w.heap ++ [readLogger w r] } w.heap.length
        = readLogger w r from getD_concat_length _ _ _]
  rw [set_concat_length]

theorem splitOnDot_ne_nil (cs : List Char) : splitOnDot cs ≠ [] := by
  induction cs with
  | nil => simp [splitOnDot]
  | cons c cs ih =>
    by_cases hc : c = '.'
    · simp [splitOnDot, hc]
    · simp only [splitOnDot, if_neg hc]
      cases hsp : splitOnDot cs with
      | nil => simp
      | cons h t => simp

/-- `strings.Split` of a dot-free string is the one-component list. -/
theorem splitOnDot_no_dot (cs : List Char) (h : '.' ∉ cs) : splitOnDot cs = [cs] := by
  induction cs with
  | nil => rfl
  | cons c cs ih =>
    have hc : c ≠ '.' := fun e => h (e ▸ List.mem_cons_self c cs)
    have hrec := ih (fun hm => h (List.mem_cons_of_mem c hm))
    simp only [splitOnDot, if_neg hc, hrec]

/-- A string containing a dot splits into at least two components. -/
theorem two_le_splitOnDot_of_dot (cs : List Char) (h : '.' ∈ cs) :
    2 ≤ (splitOnDot cs).length := by
  induction cs with
  | nil => exact absurd h (List.not_mem_nil _)
  | cons c cs ih =>
    by_cases hc : c = '.'
    · have hne := splitOnDot_ne_nil cs
      have hlen : 0 < (splitOnDot cs).length := List.length_pos.mpr hne
      simp only [splitOnDot, if_pos hc, List.length_cons]
      omega
    · have hmem : '.' ∈ cs := by
        rcases List.mem_cons.mp h with he | hm
        · exact absurd he.symm hc
        · exact hm
      simp only [splitOnDot, if_neg hc]
      cases hsp : splitOnDot cs with
      | nil => exact absurd hsp (splitOnDot_ne_nil cs)
      | cons hh tt =>
        have hlen := ih hmem
        rw [hsp] at hlen
        simpa using hlen

theorem two_le_splitOnDot_iff_dot (cs : List Char) :
    2 ≤ (splitOnDot cs).length ↔ '.' ∈ cs := by
  constructor
  · intro h2
    by_contra hnd
    rw [splitOnDot_no_dot cs hnd] at h2
    simp at h2
  · exact two_le_splitOnDot_of_dot cs

/-! ### Claims -/

/-- C1: for every logger and every severity S in {ERROR, INFO, DEBUG},
the corresponding emission method (and its formatted variant) writes
exactly one line if and only if S's rank is at most the logger's
threshold rank, and zero lines when S's rank exceeds it: the number of
lines each call appends to the sink is 1 when `S.val ≤ threshold.val`
and 0 otherwise, and the one-line count is equivalent to the rank
test. -/
theorem emission_iff_level_le_threshold (w : World) (r : Nat) (now s f : String)
    (args : List GoVal) :
    ((Logger.Error w r now s).sink.lines.length =
      w.sink.lines.length + if ErrorLevel.val ≤ (readLogger w r).Level.val then 1 else 0) ∧
    ((Logger.Info w r now s).sink.lines.length =
      w.sink.lines.length + if InfoLevel.val ≤ (readLogger w r).Level.val then 1 else 0) ∧
    ((Logger.Debug w r now s).sink.lines.length =
      w.sink.lines.length + if DebugLevel.val ≤ (readLogger w r).Level.val then 1 else 0) ∧
    ((Logger.Errorf w r now f args).sink.lines.length =
      w.sink.lines.length + if ErrorLevel.val ≤ (readLogger w r).Level.val then 1 else 0) ∧
    ((Logger.Infof w r now f args).sink.lines.length =
      w.sink.lines.length + if InfoLevel.val ≤ (readLogger w r).Level.val then 1 else 0) ∧
    ((Logger.Debugf w r now f args).sink.lines.length =
      w.sink.lines.length + if DebugLevel.val ≤ (readLogger w r).Level.val then 1 else 0) ∧
    (∀ lvl : Level, (Logger.log w r lvl now s).sink.lines.length =
      w.sink.lines.length + 1 ↔ lvl.val ≤ (readLogger w r).Level.val) := by
  refine ⟨?_, ?_, ?_, ?_, ?_, ?_, fun lvl => ?_⟩ <;>
    simp only [Logger.Error, Logger.Info, Logger.Debug, Logger.Errorf, Logger.Infof,
      Logger.Debugf, log_eq, List.length_append] <;>
    split <;> simp_all

/-- C2: `getLevel` is total and case-insensitive — any string whose
lowercasing is `"error"` / `"debug"` / `"info"` maps to the matching
level, and every other string (the empty string included) maps to
INFO — and `NewLogger` derives its threshold by applying `getLevel` to
the `LOG_LEVEL` value, an absent variable also yielding INFO. -/
theorem getLevel_total_and_newLogger_threshold :
    (∀ s : String, toLowerGo s = "error" → getLevel s = ErrorLevel) ∧
    (∀ s : String, toLowerGo s = "debug" → getLevel s = DebugLevel) ∧
    (∀ s : String, toLowerGo s = "info" → getLevel s = InfoLevel) ∧
    (∀ s : String, toLowerGo s ≠ "error" → toLowerGo s ≠ "debug" →
      toLowerGo s ≠ "info" → getLevel s = InfoLevel) ∧
    (∀ env : Option String, (NewLogger env).Level = getLevel (env.getD "")) ∧
    (NewLogger none).Level = InfoLevel := by
  refine ⟨fun s h => ?_, fun s h => ?_, fun s h => ?_, fun s h1 h2 h3 => ?_,
    fun env => ?_, ?_⟩
  · simp [getLevel, h]
  · simp [getLevel, h]
  · simp [getLevel, h]
  · simp [getLevel, h1, h2, h3]
  · cases env <;> rfl
  · decide

/-- Witness for C2 at the spec's own sample inputs. -/
theorem getLevel_total_and_newLogger_threshold_witness :
    getLevel "ERROR" = ErrorLevel ∧ getLevel "Debug" = DebugLevel ∧
    getLevel "info" = InfoLevel ∧ getLevel "bogus" = InfoLevel ∧
    getLevel "" = InfoLevel :=
  ⟨getLevel_total_and_newLogger_threshold.1 "ERROR" (by decide),
   getLevel_total_and_newLogger_threshold.2.1 "Debug" (by decide),
   getLevel_total_and_newLogger_threshold.2.2.1 "info" (by decide),
   getLevel_total_and_newLogger_threshold.2.2.2.1 "bogus"
     (by decide) (by decide) (by decide),
   getLevel_total_and_newLogger_threshold.2.2.2.1 ""
     (by decide) (by decide) (by decide)⟩

/-- C3: deriving a logger with `WithContext` (or `WithSource`) never
changes the receiver: the receiver's heap struct is unchanged by the
derivation, the sink is untouched, and emitting from the receiver after
the derivation yields exactly the sink (prefix and lines, so in
particular the same context suffix — none if it had none) that emitting
before the derivation would. -/
theorem withContext_never_mutates_receiver (w : World) (r : Nat)
    (m : List (String × String)) (lvl : Level) (now s file : String) (line : Int)
    (fileFirst : Bool) (h : r < w.heap.length) :
    readLogger (Logger.WithContext w r m).1 r = readLogger w r ∧
    (Logger.WithContext w r m).1.sink = w.sink ∧
    (Logger.log (Logger.WithContext w r m).1 r lvl now s).sink =
      (Logger.log w r lvl now s).sink ∧
    readLogger (Logger.WithSource w r file line fileFirst).1 r = readLogger w r ∧
    (Logger.log (Logger.WithSource w r file line fileFirst).1 r lvl now s).sink =
      (Logger.log w r lvl now s).sink := by
  have key : ∀ mm : List (String × String),
      readLogger (Logger.WithContext w r mm).1 r = readLogger w r := by
    intro mm
    rw [withContext_eq]
    exact List.getD_append _ _ _ _ h
  have ksink : ∀ mm : List (String × String),
      (Logger.WithContext w r mm).1.sink = w.sink := by
    intro mm
    rw [withContext_eq]
  have klog : ∀ mm : List (String × String),
      (Logger.log (Logger.WithContext w r mm).1 r lvl now s).sink =
        (Logger.log w r lvl now s).sink := by
    intro mm
    rw [log_eq, log_eq, key mm, ksink mm]
  refine ⟨key m, ksink m, klog m, ?_, ?_⟩ <;> simp only [Logger.WithSource]
  · exact key _
  · exact klog _

/-- Witness for C3 on the one-logger initial world. -/
theorem withContext_never_mutates_receiver_witness :
    0 < (initialWorld none).heap.length ∧
    readLogger (Logger.WithContext (initialWorld none) 0 [("a", "1")]).1 0 =
      readLogger (initialWorld none) 0 :=
  ⟨by decide,
   (withContext_never_mutates_receiver (initialWorld none) 0 [("a", "1")] InfoLevel
     "2025-01-01T00:00:00" "hi" "main.go" 3 true (by decide)).1⟩

/-- C4: `WithContext` allocates a new logger with the receiver's
threshold, leaves the shared sink as it was, and gives the new logger
the receiver's context suffix followed by `" k=v"` for each entry of
the field list in iteration order; concretely, deriving with
`[("a", "1")]` from the fresh logger makes it emit a line ending in
`" a=1"`, and chaining `[("b", "2")]` yields a line ending in
`" a=1 b=2"`. -/
theorem withContext_extends_context (w : World) (r : Nat) (m : List (String × String)) :
    (readLogger (Logger.WithContext w r m).1 (Logger.WithContext w r m).2).Level =
      (readLogger w r).Level ∧
    (Logger.WithContext w r m).1.sink = w.sink ∧
    (readLogger (Logger.WithContext w r m).1 (Logger.WithContext w r m).2).contextMessage =
      m.foldl (fun acc kv => acc ++ " " ++ kv.1 ++ "=" ++ kv.2)
        (readLogger w r).contextMessage ∧
    (Logger.Info (Logger.WithContext (initialWorld none) 0 [("a", "1")]).1
        (Logger.WithContext (initialWorld none) 0 [("a", "1")]).2
        "2025-01-01T00:00:00" "hi").sink.lines =
      ["timestamp=2025-01-01T00:00:00 level=INFO msg=\"hi\" a=1"] ∧
    (∃ pre : String,
      "timestamp=2025-01-01T00:00:00 level=INFO msg=\"hi\" a=1" = pre ++ " a=1") ∧
    (Logger.Info
        (Logger.WithContext (Logger.WithContext (initialWorld none) 0 [("a", "1")]).1
          (Logger.WithContext (initialWorld none) 0 [("a", "1")]).2 [("b", "2")]).1
        (Logger.WithContext (Logger.WithContext (initialWorld none) 0 [("a", "1")]).1
          (Logger.WithContext (initialWorld none) 0 [("a", "1")]).2 [("b", "2")]).2
        "2025-01-01T00:00:00" "hi").sink.lines =
      ["timestamp=2025-01-01T00:00:00 level=INFO msg=\"hi\" a=1 b=2"] ∧
    (∃ pre : String,
      "timestamp=2025-01-01T00:00:00 level=INFO msg=\"hi\" a=1 b=2" = pre ++ " a=1 b=2") := by
  have hnew : readLogger (Logger.WithContext w r m).1 (Logger.WithContext w r m).2 =
      { Level := (readLogger w r).Level
        contextMessage :=
          m.foldl (fun acc kv => acc ++ " " ++ kv.1 ++ "=" ++ kv.2)
            (readLogger w r).contextMessage } := by
    rw [withContext_eq]
    exact getD_concat_length _ _ _
  refine ⟨?_, ?_, ?_, by decide,
    ⟨"timestamp=2025-01-01T00:00:00 level=INFO msg=\"hi\"", by decide⟩, by decide,
    ⟨"timestamp=2025-01-01T00:00:00 level=INFO msg=\"hi\"", by decide⟩⟩
  · rw [hnew]
  · rw [withContext_eq]
  · rw [hnew]

/-- C5 counterexample: with an INFO emission already performed on the
shared sink, the line a subsequent `Fatal` writes carries the earlier
call's `timestamp=... level=INFO ` prefix, so it is not of the bare
form `level=FATAL msg=<message>` the claim states for every logger. -/
theorem fatal_bare_line_counterexample :
    (Logger.Fatal (Logger.Info (initialWorld none) 0 "2025-01-01T00:00:00" "x") 0
        "boom").sink.lines =
      ["timestamp=2025-01-01T00:00:00 level=INFO msg=\"x\"",
       "timestamp=2025-01-01T00:00:00 level=INFO level=FATAL msg=boom"] ∧
    (Logger.Fatal (Logger.Info (initialWorld none) 0 "2025-01-01T00:00:00" "x") 0
        "boom").sink.lines.getLast? ≠ some "level=FATAL msg=boom" := by
  exact ⟨by decide, by decide⟩

/-- C5 (amended): `Fatal` and `Fatalf` always write exactly one line —
the sink's current prefix followed by `level=FATAL msg=<message>`, the
message unquoted (interpolated, for `Fatalf`) — with no rank gate, and
then terminate the process; the line is the bare
`level=FATAL msg=<message>` exactly in the stated minimal form when the
sink's prefix is empty, as it is before any severity call. -/
theorem fatal_always_emits_and_exits (w : World) (r : Nat) (s f : String)
    (args : List GoVal) :
    (Logger.Fatal w r s).sink.lines =
      w.sink.lines ++ [w.sink.pfx ++ ("level=FATAL msg=" ++ s)] ∧
    (Logger.Fatal w r s).exited = true ∧
    (Logger.Fatalf w r f args).sink.lines =
      w.sink.lines ++ [w.sink.pfx ++ ("level=FATAL msg=" ++ sprintf f args)] ∧
    (Logger.Fatalf w r f args).exited = true ∧
    (w.sink.pfx = "" →
      (Logger.Fatal w r s).sink.lines = w.sink.lines ++ ["level=FATAL msg=" ++ s]) := by
  refine ⟨?_, rfl, ?_, rfl, ?_⟩
  · simp [Logger.Fatal, sprintf_fatal]
  · simp [Logger.Fatalf, sprintf_fatal, sprintf_fatal_pre]
  · intro hp
    simp [Logger.Fatal, sprintf_fatal, hp]

/-- Witness for C5 (amended) on the fresh world, whose sink prefix is
empty. -/
theorem fatal_always_emits_and_exits_witness :
    (initialWorld none).sink.pfx = "" ∧
    (Logger.Fatal (initialWorld none) 0 "boom").sink.lines =
      (initialWorld none).sink.lines ++ ["level=FATAL msg=" ++ "boom"] :=
  ⟨rfl,
   (fatal_always_emits_and_exits (initialWorld none) 0 "boom" "f" []).2.2.2.2 rfl⟩

/-- C6: an emission call whose level rank exceeds the logger's
threshold rank still sets the shared sink's prefix to the call's
`timestamp=<now> level=<name> ` string — an observable side effect —
while writing no line.  All six severity methods reach this code
through `Logger.log`. -/
theorem filtered_call_still_sets_pfx (w : World) (r : Nat) (lvl : Level)
    (now s : String) (h : (readLogger w r).Level.val < lvl.val) :
    (Logger.log w r lvl now s).sink.pfx =
      "timestamp=" ++ now ++ " level=" ++ lvl.name ++ " " ∧
    (Logger.log w r lvl now s).sink.lines = w.sink.lines := by
  rw [log_eq]
  refine ⟨rfl, ?_⟩
  rw [if_neg (by omega)]
  simp

/-- Witness for C6: a DEBUG call on the default INFO threshold. -/
theorem filtered_call_still_sets_pfx_witness :
    (readLogger (initialWorld none) 0).Level.val < DebugLevel.val ∧
    (Logger.log (initialWorld none) 0 DebugLevel "2025-01-01T00:00:00" "hi").sink.pfx =
      "timestamp=" ++ "2025-01-01T00:00:00" ++ " level=" ++ DebugLevel.name ++ " " :=
  ⟨by decide,
   (filtered_call_still_sets_pfx (initialWorld none) 0 DebugLevel
     "2025-01-01T00:00:00" "hi" (by decide)).1⟩

/-- C7: every `Logger.log` call — filtered or not — leaves the sink
prefix equal to its own `timestamp=... level=... ` string; `Fatal` and
`Fatalf` never reset it; hence a `Fatal` line written after any
severity call carries that call's prefix prepended to
`level=FATAL msg=<message>`, and a `Fatal` on the initial world (no
prior severity call) produces the bare line. -/
theorem pfx_persists_and_fatal_inherits_pfx :
    (∀ (w : World) (r : Nat) (lvl : Level) (now s : String),
      (Logger.log w r lvl now s).sink.pfx = timeLevel now lvl) ∧
    (∀ (w : World) (r : Nat) (s : String),
      (Logger.Fatal w r s).sink.pfx = w.sink.pfx) ∧
    (∀ (w : World) (r : Nat) (f : String) (args : List GoVal),
      (Logger.Fatalf w r f args).sink.pfx = w.sink.pfx) ∧
    (∀ (w : World) (r : Nat) (lvl : Level) (now s : String) (r2 : Nat) (s2 : String),
      (Logger.Fatal (Logger.log w r lvl now s) r2 s2).sink.lines =
        (Logger.log w r lvl now s).sink.lines ++
          [timeLevel now lvl ++ ("level=FATAL msg=" ++ s2)]) ∧
    (∀ (env : Option String) (r2 : Nat) (s2 : String),
      (Logger.Fatal (initialWorld env) r2 s2).sink.lines =
        ["level=FATAL msg=" ++ s2]) := by
  refine ⟨fun w r lvl now s => ?_, fun w r s => rfl, fun w r f args => rfl,
    fun w r lvl now s r2 s2 => ?_, fun env r2 s2 => ?_⟩
  · rw [log_eq]
  · simp [Logger.Fatal, sprintf_fatal]
    rw [log_eq]
  · simp [Logger.Fatal, sprintf_fatal, initialWorld]

/-- C8: the formatted variants interpolate their arguments into the
format string positionally and emit the result as the (quoted)
message: each is exactly `Logger.log` at its level on `sprintf f args`;
concretely, `Infof "count=%d" 3` under the default INFO threshold
emits one line containing `msg="count=3"`. -/
theorem formatted_variants_interpolate (w : World) (r : Nat) (now f : String)
    (args : List GoVal) :
    Logger.Errorf w r now f args = Logger.log w r ErrorLevel now (sprintf f args) ∧
    Logger.Infof w r now f args = Logger.log w r InfoLevel now (sprintf f args) ∧
    Logger.Debugf w r now f args = Logger.log w r DebugLevel now (sprintf f args) ∧
    (Logger.Infof (initialWorld none) 0 "2025-01-01T00:00:00" "count=%d"
        [GoVal.int 3]).sink.lines =
      ["timestamp=2025-01-01T00:00:00 level=INFO msg=\"count=3\""] ∧
    (∃ pre post : String,
      "timestamp=2025-01-01T00:00:00 level=INFO msg=\"count=3\"" =
        pre ++ "msg=\"count=3\"" ++ post) := by
  refine ⟨?_, ?_, ?_, by decide,
    ⟨"timestamp=2025-01-01T00:00:00 level=INFO ", "", by decide⟩⟩ <;>
  · simp only [Logger.Errorf, Logger.Infof, Logger.Debugf, sprintf_s]

/-- C9 counterexample: the claim fails on the code in two places.
With the dot-free qualified name `nodot`, introspection succeeds but
the split has a single component, so `funcName[1]` is an out-of-bounds
access — the code panics (modelled `none`) instead of never raising an
error and returning the second component.  And through the qualified
name `main.function name unknown` a successful introspection also
yields the sentinel, so the sentinel is not returned exactly when
introspection fails. -/
theorem getCaller_counterexample :
    GetCaller (some "nodot") = none ∧
    GetCaller (some "main.function name unknown") = some "function name unknown" :=
  ⟨by decide, by decide⟩

/-- C9 (amended): `GetCaller` returns the sentinel
`"function name unknown"` when stack introspection fails; when
introspection succeeds it returns, without error, the component at
position 1 of the dot-split of the qualified caller name provided that
name contains a dot (dot-free names make the access out of bounds, and
a successful split whose second component equals the sentinel also
returns the sentinel). -/
theorem getCaller_sentinel_and_second_component (qn : String) :
    GetCaller none = some "function name unknown" ∧
    ('.' ∈ qn.data →
      1 < (splitOnDot qn.data).length ∧
      GetCaller (some qn) = some (String.mk ((splitOnDot qn.data).getD 1 []))) := by
  refine ⟨rfl, fun h => ?_⟩
  have h2 := two_le_splitOnDot_of_dot qn.data h
  refine ⟨by omega, ?_⟩
  show ((splitOnDot qn.data).get? 1).map String.mk = _
  rw [List.get?_eq_getElem?, List.getElem?_eq_getElem (by omega),
    List.getD_eq_getElem _ _ (by omega)]
  rfl

/-- Witness for C9 (amended) at the qualified name `main.foo`. -/
theorem getCaller_sentinel_and_second_component_witness :
    (1 < (splitOnDot "main.foo".data).length ∧
      GetCaller (some "main.foo") =
        some (String.mk ((splitOnDot "main.foo".data).getD 1 []))) ∧
    GetCaller (some "main.foo") = some "foo" :=
  ⟨(getCaller_sentinel_and_second_component "main.foo").2 (by decide), by decide⟩

/-- C10: on `GetCaller`'s success path the result comes from indexing
position 1 of the dot-split of the qualified name; that index is in
bounds precisely when the name contains at least one dot (equivalently,
the split has at least two components), and for a dot-free name the
split is the one-component list and the access is out of bounds (the
modelled panic). -/
theorem getCaller_index_in_bounds_iff_dot (qn : String) :
    (2 ≤ (splitOnDot qn.data).length ↔ '.' ∈ qn.data) ∧
    ('.' ∈ qn.data → (GetCaller (some qn)).isSome = true) ∧
    ('.' ∉ qn.data → splitOnDot qn.data = [qn.data] ∧ GetCaller (some qn) = none) := by
  refine ⟨two_le_splitOnDot_iff_dot qn.data, fun h => ?_, fun h => ?_⟩
  · have h2 := two_le_splitOnDot_of_dot qn.data h
    show (((splitOnDot qn.data).get? 1).map String.mk).isSome = true
    rw [List.get?_eq_getElem?, List.getElem?_eq_getElem (by omega)]
    rfl
  · refine ⟨splitOnDot_no_dot qn.data h, ?_⟩
    show ((splitOnDot qn.data).get? 1).map String.mk = none
    rw [splitOnDot_no_dot qn.data h]
    rfl

/-- Witness for C10 at a dotted and at a dot-free qualified name. -/
theorem getCaller_index_in_bounds_iff_dot_witness :
    (GetCaller (some "main.foo")).isSome = true ∧
    (splitOnDot "nodot".data = ["nodot".data] ∧ GetCaller (some "nodot") = none) :=
  ⟨(getCaller_index_in_bounds_iff_dot "main.foo").2.1 (by decide),
   (getCaller_index_in_bounds_iff_dot "nodot").2.2 (by decide)⟩

end Logr
